import Mathlib

/-!
Verification development for the basin identity-resolution core and the
identity-filter convention of the LLM_Agent repository
(`agent_tools/basin_match_logic.py`, `agent_tools/get_basin_attributes.py`,
`agent_tools/check_natura2000.py`, `agent_tools/generate_map.py` and the
other `check_*` spatial tools).

The Python code is shallowly embedded: pandas string cells become `String`,
registry rows become `Row`, the pandas `Series.str.contains` call (whose
default is `regex=True`) is modelled by a small regular-expression fragment
(`RTok`, `reParseAux`, `reSearch`), the process-wide `CACHE` dictionary and
`DataFrame.copy()` become an explicit heap of tables (`LState`, `allocT`,
`readT`, `writeT`), and exceptions escaping a function become `Except.error`.
-/

/-! ## Python string primitives used by the code -/

/-- Model of Python `str.lower()` on the character repertoire the data uses:
ASCII letters plus the Danish letters Æ, Ø, Å.  Other characters are left
unchanged. -/
def pyLowerChar (c : Char) : Char :=
  if 'A' ≤ c && c ≤ 'Z' then Char.ofNat (c.toNat + 32)
  else if c = 'Æ' then 'æ'
  else if c = 'Ø' then 'ø'
  else if c = 'Å' then 'å'
  else c

/-- Model of Python `str.lower()` applied characterwise. -/
def pyLower (s : String) : String := String.mk (s.toList.map pyLowerChar)

/-- Drop leading whitespace characters of a character list. -/
def dropWS (l : List Char) : List Char := l.dropWhile (fun c => c.isWhitespace)

/-- Model of Python `str.strip()`: remove whitespace from both ends. -/
def pyStrip (s : String) : String :=
  String.mk ((dropWS (dropWS s.toList).reverse).reverse)

/-- Does `pat` occur at the head of the list? (exact character match). -/
def isPrefixB : List Char → List Char → Bool
  | [], _ => true
  | _ :: _, [] => false
  | a :: as, b :: bs => (a == b) && isPrefixB as bs

/-- Literal (non-regex) substring containment on character lists, the notion
the specification's words "contains ... as a substring" denote. -/
def hasSub (needle : List Char) : List Char → Bool
  | [] => isPrefixB needle []
  | c :: cs => isPrefixB needle (c :: cs) || hasSub needle cs

/-- Literal substring containment on strings. -/
def strHasS (needle hay : String) : Bool := hasSub needle.toList hay.toList

/-- Model of Python `str.replace(pat, rep)`, fuelled so that the recursion
is structural (each step consumes at least one character, so fuel equal to
the input length never runs out): replace every non-overlapping occurrence,
scanning left to right. -/
def replFuel (pat rep : List Char) : Nat → List Char → List Char
  | _, [] => []
  | 0, l => l
  | n + 1, c :: cs =>
    if isPrefixB pat (c :: cs) then
      rep ++ replFuel pat rep n (List.drop (pat.length - 1) cs)
    else c :: replFuel pat rep n cs

/-- Model of Python `str.replace(pat, rep)` on character lists. -/
def replList (pat rep : List Char) (l : List Char) : List Char :=
  replFuel pat rep l.length l

/-- Model of Python `str.replace` on strings. -/
def replaceAll (s pat rep : String) : String :=
  String.mk (replList pat.toList rep.toList s.toList)

/-- Model of `"sep".join(...)` for the newline separator used by the
disambiguation message (`basin_match_logic.py`, `"\n".join(...)`). -/
def joinNL : List String → String
  | [] => ""
  | [x] => x
  | x :: y :: t => x ++ "\n" ++ joinNL (y :: t)

/-! ## Model of the pandas/`re` pattern semantics

`Series.str.contains(pat, na=False)` compiles `pat` with `re.compile` (the
`regex=True` default) and tests `re.search` on every cell.  The fragment of
Python regular expressions modelled here is: plain characters, the wildcard
`.` (which matches any character except a newline), and backslash escapes of
non-alphanumeric characters (which Python treats as the literal character).
Patterns containing any other metacharacter (`( ) [ ] { } * + ? | ^ $`), or
an escape of an alphanumeric character, are outside the fragment and are
modelled as failing to compile; of those, the only pattern this development
evaluates concretely is `"("`, for which failure is faithful (Python raises
`re.error: missing ), unterminated subpattern`). -/

/-- One token of the modelled regular-expression fragment. -/
inductive RTok where
  | lit (c : Char)
  | dot
deriving DecidableEq, Repr

/-- Metacharacters outside the modelled fragment (parsing them fails). -/
def metaChar (c : Char) : Bool :=
  c = '(' || c = ')' || c = '[' || c = ']' || c = '{' || c = '}' ||
  c = '*' || c = '+' || c = '?' || c = '|' || c = '^' || c = '$'

/-- A character the regex engine treats as itself, with no escaping needed. -/
def regexLiteralChar (c : Char) : Bool :=
  !(c = '\\' || c = '.' || metaChar c)

/-- Model of `re.compile` on the fragment: parse a pattern into tokens. -/
def reParseAux : List Char → Option (List RTok)
  | [] => some []
  | c :: rest =>
    if c = '\\' then
      match rest with
      | [] => none
      | d :: rest' =>
        if d.isAlphanum then none
        else (reParseAux rest').map (fun ts => RTok.lit d :: ts)
    else if c = '.' then (reParseAux rest).map (fun ts => RTok.dot :: ts)
    else if metaChar c then none
    else (reParseAux rest).map (fun ts => RTok.lit c :: ts)

/-- Model of `re.compile` on strings. -/
def reParse (s : String) : Option (List RTok) := reParseAux s.toList

/-- Does one token match one character? `.` matches anything but a newline. -/
def tokMatch : RTok → Char → Bool
  | RTok.lit a, c => a == c
  | RTok.dot, c => !(c == '\n')

/-- Does the token list match a prefix of the character list? -/
def matchHere : List RTok → List Char → Bool
  | [], _ => true
  | _ :: _, [] => false
  | t :: ts, c :: cs => tokMatch t c && matchHere ts cs

/-- Model of `re.search`: does the token list match starting at some
position of the character list? -/
def reSearch (ts : List RTok) : List Char → Bool
  | [] => matchHere ts []
  | c :: cs => matchHere ts (c :: cs) || reSearch ts cs

/-! ## Data model: registry rows and the normalizer -/

/-- One row of the master registry `ID-Betegnelser.csv`, restricted to the
two columns the resolution core reads (`Frakmt`, `Kommune`); both cells have
already been `fillna('')`-normalized to plain strings. -/
structure Row where
  frakmt : String
  kommune : String
deriving DecidableEq, Repr

/-- Embedding of `_normalize` (`basin_match_logic.py`): lowercase, strip,
then fold the three Danish letters; absent or empty input gives `""`. -/
def pyNormalize (text : Option String) : String :=
  match text with
  | none => ""
  | some s =>
    if s = "" then ""
    else
      let t := pyStrip (pyLower s)
      replaceAll (replaceAll (replaceAll t "æ" "ae") "ø" "oe") "å" "aa"

/-- Python truthiness of an optional string (`if kommune_query:`):
`None` and `""` are falsy. -/
def truthy : Option String → Bool
  | none => false
  | some s => !(s == "")

/-! ## Registry cache (`_load_data`) with an explicit heap

The process-wide `CACHE = {"df": None, "load_time": 0}` and the
`DataFrame.copy()` calls are modelled with an explicit heap of tables:
`CACHE["df"]` holds a heap reference, `.copy()` allocates a fresh cell with
the same contents, and mutating one cell leaves every other cell unchanged.
The backing file and the two `pd.read_csv` attempts (primary `cp1252`,
fallback `latin-1`) are modelled by an environment `FS`; each load attempt
made is recorded in a trace list (`"cp1252"` / `"latin-1"`). -/

/-- The raw parse result of one `pd.read_csv` call: header names and cell
rows, a cell being `none` when pandas reads it as NA. -/
structure RawCSV where
  header : List String
  cells : List (List (Option String))
deriving DecidableEq, Repr

/-- The external world of `_load_data`: whether the registry file exists
and what each of the two encoding attempts would yield. -/
structure FS where
  fileExists : Bool
  readCp1252 : Except String RawCSV
  readLatin1 : Except String RawCSV
deriving Repr

/-- The cache dictionary: an optional heap reference to the cached table
and the recorded load time (seconds). -/
structure Cache where
  dfRef : Option Nat
  loadTime : Nat
deriving DecidableEq, Repr

/-- Process state: the heap of allocated tables plus the cache. -/
structure LState where
  heap : List (List Row)
  cache : Cache
deriving DecidableEq, Repr

/-- Allocate a fresh table cell on the heap, returning its reference. -/
def allocT (σ : LState) (t : List Row) : Nat × LState :=
  (σ.heap.length, { σ with heap := σ.heap ++ [t] })

/-- Read the table at a heap reference (default empty). -/
def readT (σ : LState) (r : Nat) : List Row := σ.heap.getD r []

/-- Mutate the table at a heap reference (a caller mutating its snapshot). -/
def writeT (σ : LState) (r : Nat) (t : List Row) : LState :=
  { σ with heap := σ.heap.set r t }

/-- `df.columns = [col.strip() for col in df.columns]`. -/
def stripRawHeader (r : RawCSV) : RawCSV :=
  { r with header := r.header.map pyStrip }

/-- `CSV_KOMMUNE_COL not in df.columns or CSV_FRAKMT_COL not in df.columns`
negated: both required columns are present. -/
def hasRequiredCols (r : RawCSV) : Bool :=
  r.header.contains "Kommune" && r.header.contains "Frakmt"

/-- Extract a named column's cell from a row, `fillna('')`-style: an absent
or NA cell becomes the empty string. -/
def getCell (header : List String) (row : List (Option String)) (col : String) : String :=
  match header.findIdx? (fun h => h == col) with
  | none => ""
  | some i => (row.getD i none).getD ""

/-- Project a raw parse onto the two registry columns. -/
def extractRows (r : RawCSV) : List Row :=
  r.cells.map (fun cs =>
    { frakmt := getCell r.header cs "Frakmt", kommune := getCell r.header cs "Kommune" })

/-- One `pd.read_csv` attempt followed by the in-`try` column validation of
`_load_data`: a missing required column raises `ValueError` inside the same
`try` block, so it surfaces as an error of the attempt. -/
def tryRead (res : Except String RawCSV) : Except String (List Row) :=
  match res with
  | Except.error e => Except.error e
  | Except.ok raw =>
    let raw' := stripRawHeader raw
    if hasRequiredCols raw' then Except.ok (extractRows raw')
    else Except.error "CSV mangler paakraevede kolonner"

/-- The fresh-load path of `_load_data`: existence check, primary attempt,
fallback attempt, cache update, and `df.copy()` on success.  Returns the
reference handed to the caller, the new state, and the attempt trace. -/
def loadFresh (fs : FS) (now : Nat) (σ : LState) : Option Nat × LState × List String :=
  if fs.fileExists = false then (none, σ, [])
  else
    match tryRead fs.readCp1252 with
    | Except.ok t =>
      let a1 := allocT σ t
      let σ₂ := { a1.2 with cache := { dfRef := some a1.1, loadTime := now } }
      let a2 := allocT σ₂ t
      (some a2.1, a2.2, ["cp1252"])
    | Except.error _ =>
      match tryRead fs.readLatin1 with
      | Except.ok t =>
        let a1 := allocT σ t
        let σ₂ := { a1.2 with cache := { dfRef := some a1.1, loadTime := now } }
        let a2 := allocT σ₂ t
        (some a2.1, a2.2, ["cp1252", "latin-1"])
      | Except.error _ =>
        (none, { σ with cache := { dfRef := none, loadTime := σ.cache.loadTime } },
         ["cp1252", "latin-1"])

/-- Embedding of `_load_data`: serve a fresh copy of a non-stale cached
table, otherwise run the fresh-load path. -/
def loadData (fs : FS) (now : Nat) (σ : LState) : Option Nat × LState × List String :=
  match σ.cache.dfRef with
  | some r =>
    if now - σ.cache.loadTime < 3600 then
      let a := allocT σ (readT σ r)
      (some a.1, a.2, [])
    else loadFresh fs now σ
  | none => loadFresh fs now σ

/-! ## The resolver (`find_basin_entries_main`) -/

/-- The structured outcome dictionary of the resolver, one constructor per
`status` value. -/
inductive ResolveOut where
  | noQuery (message : String)
  | errorOut (message : String)
  | notFound (message : String)
  | foundExact (basin_identifier : String) (kommune : String)
  | foundMultiple (count : Nat) (message_to_user : String)
      (matches_data : List (String × String))
deriving DecidableEq, Repr

/-- The `status` string of an outcome. -/
def ResolveOut.status : ResolveOut → String
  | ResolveOut.noQuery _ => "no_query"
  | ResolveOut.errorOut _ => "error"
  | ResolveOut.notFound _ => "not_found"
  | ResolveOut.foundExact _ _ => "found_exact"
  | ResolveOut.foundMultiple _ _ _ => "found_multiple"

/-- The status of a resolver call whose exceptions are reified: an escaped
exception is reported as `"exception"`, which is not a contract status. -/
def statusOf : Except String ResolveOut → String
  | Except.error _ => "exception"
  | Except.ok o => o.status

/-- The pair stored in `matches_data` for one row (exact stored strings). -/
def candOf (r : Row) : String × String := (r.frakmt, r.kommune)

/-- One `mask &= df[col].apply(_normalize).str.contains(norm_query, na=False)`
step: normalize the query, compile it as a regular expression (the pandas
`regex=True` default) and keep the rows whose normalized cell it matches;
a pattern that fails to compile raises `re.error` past the caller.
When the query is falsy the step is skipped. -/
def filterStep (rows : List Row) (q : Option String) (proj : Row → String) :
    Except String (List Row) :=
  if truthy q then
    match reParse (pyNormalize q) with
    | none => Except.error "re.error"
    | some toks =>
      Except.ok (rows.filter (fun r => reSearch toks (pyNormalize (some (proj r))).toList))
  else Except.ok rows

/-- The one-line candidate rendering `- ID: {identifier} ({kommune})`. -/
def candLine (p : String × String) : String :=
  "- ID: " ++ p.1 ++ " (" ++ p.2 ++ ")"

/-- The `found_multiple` message: the count message, extended with the
inline enumeration exactly when at most 15 candidates remain. -/
def mkMessage (n : Nat) (ms : List (String × String)) : String :=
  let base := "Fandt " ++ toString n ++ " mulige bassiner. Præciser venligst."
  if n ≤ 15 then base ++ "\n" ++ joinNL (ms.map candLine) else base

/-- The four-way result classification at the end of
`find_basin_entries_main`, applied to the filtered rows. -/
def classify (sel : List Row) : ResolveOut :=
  match sel with
  | [] => ResolveOut.notFound "Ingen bassiner matchede kriterierne."
  | [r] => ResolveOut.foundExact r.frakmt r.kommune
  | rs => ResolveOut.foundMultiple rs.length (mkMessage rs.length (rs.map candOf))
      (rs.map candOf)

/-- The body of `find_basin_entries_main` after `_load_data` has produced a
table: the two sequential mask filters followed by classification. -/
def find_basin_entries_rest (rows : List Row) (kq bq : Option String) :
    Except String ResolveOut :=
  match filterStep rows kq Row.kommune with
  | Except.error e => Except.error e
  | Except.ok rows1 =>
    match filterStep rows1 bq Row.frakmt with
    | Except.error e => Except.error e
    | Except.ok rows2 => Except.ok (classify rows2)

/-- Embedding of `find_basin_entries_main`: the no-query guard, the
`_load_data` call (with its state effects and attempt trace), the `None`
check, and the filtering body. -/
def find_basin_entries_main (fs : FS) (now : Nat) (σ : LState)
    (kommune_query basin_id_query : Option String) :
    Except String ResolveOut × LState × List String :=
  if !(truthy kommune_query) && !(truthy basin_id_query) then
    (Except.ok (ResolveOut.noQuery "Angiv kommune eller bassin ID."), σ, [])
  else
    let l := loadData fs now σ
    match l.1 with
    | none => (Except.ok (ResolveOut.errorOut "Kunne ikke indlæse master listen."), l.2)
    | some r => (find_basin_entries_rest (readT l.2.1 r) kommune_query basin_id_query, l.2)

/-! ## Spatial tools: the identity-filter convention

A basin geometry feature carries three identifier columns (`New_FID`,
`Frakmt`, `Stedfaestelse`) and a `Kommune` column; numeric cells such as
`New_FID` are stored here in their `astype(str)` form, and the attribute
columns of `get_basin_attributes` are an association list whose `none`
cells model pandas NA (date cells are modelled as already-formatted
strings). -/

/-- One feature of the basin geometry layer (`BASIN_FINAL.gpkg`), with all
three identifier columns present, as the tools assume. -/
structure Feature where
  newFID : String
  frakmt : String
  stedfaestelse : String
  kommune : String
  attrs : List (String × Option String)
deriving DecidableEq, Repr

/-- The exact three-column identity filter shared by `check_natura2000.py`
(lines 25-27), `get_basin_attributes.py` (lines 66-70, all three columns
present), `check_protected_nature.py`, `check_species_bilag_iv.py` and
`check_vp3_streams.py`:
`(New_FID.astype(str) == ident) | (Frakmt == ident) | (Stedfaestelse == ident)`. -/
def exactIdentFilter (f : Feature) (ident : String) : Bool :=
  (f.newFID == ident) || (f.frakmt == ident) || (f.stedfaestelse == ident)

/-- Embedding of `find_best_basin_match` (`generate_map.py`, lines 22-29):
lowercase and strip the identifier, then for each identifier column in
order test `df[col].astype(str).str.lower().str.contains(ident, na=False)`
(a regular-expression containment test) and return the first column's
non-empty match set; with no match anywhere return the empty collection.
An identifier that fails to compile as a regex raises past the caller. -/
def find_best_basin_match (df : List Feature) (ident : String) :
    Except String (List Feature) :=
  let id0 := pyStrip (pyLower ident)
  match reParse id0 with
  | none => Except.error "re.error"
  | some toks =>
    let m1 := df.filter (fun f => reSearch toks (pyLower f.newFID).toList)
    if m1 ≠ [] then Except.ok m1
    else
      let m2 := df.filter (fun f => reSearch toks (pyLower f.frakmt).toList)
      if m2 ≠ [] then Except.ok m2
      else
        let m3 := df.filter (fun f => reSearch toks (pyLower f.stedfaestelse).toList)
        if m3 ≠ [] then Except.ok m3 else Except.ok []

/-! ## `get_basin_attributes_main` -/

/-- The attribute columns the tool reports (`BASIN_ATTRIBUTE_COLUMNS`). -/
def BASIN_ATTRIBUTE_COLUMNS : List String :=
  ["Dato for seneste oprensning", "Dato for seneste oprensning af ind/udloeb",
   "Dato for seneste aarlige vedligehold", "Dato for seneste screening",
   "Bassintype", "Generel bedoemmelse", "Adgang til bassin via", "Bemaerkning"]

/-- Embedding of `_format_value` on string/NA cells: NA gives `none`, a
value that strips to empty gives `none`, otherwise the stripped string. -/
def pyFormatValue (v : Option String) : Option String :=
  match v with
  | none => none
  | some s =>
    let t := pyStrip s
    if t = "" then none else some t

/-- The key cleanup of `get_basin_attributes_main`:
`col.replace("Dato for seneste ", "Senest ").replace("aarlige ", "")`. -/
def cleanKey (c : String) : String :=
  replaceAll (replaceAll c "Dato for seneste " "Senest ") "aarlige " ""

/-- The attribute dictionary built for the single selected basin: for every
defined column present in the row, its formatted value, or the explicit
no-data marker when the value is NA or empty. -/
def buildAttrs (raw : List (String × Option String)) : List (String × String) :=
  BASIN_ATTRIBUTE_COLUMNS.filterMap (fun col =>
    match raw.lookup col with
    | none => none
    | some v =>
      match pyFormatValue v with
      | some t => some (cleanKey col, t)
      | none => some (cleanKey col, "Ingen data registreret"))

/-- The `data` dictionary of `get_basin_attributes_main`'s result. -/
structure GBAData where
  basin_id_input : String
  kommune_input : String
  fejl : Option String
  attributes : Option (List (String × String))
deriving DecidableEq, Repr

/-- Embedding of `get_basin_attributes_main` (`get_basin_attributes.py`):
case-insensitive exact municipality pre-filter, then the exact three-column
identity filter; zero municipality rows and zero identifier rows are two
distinct errors, more than one identifier row is the data-integrity error,
and exactly one row yields the formatted attributes.  The `ValueError`
raised for an empty municipality filter is caught by the function's own
handler, so every outcome is a structured `data` dictionary. -/
def get_basin_attributes_main (features : List Feature)
    (basin_identifier : String) (kommune : String) : GBAData :=
  let byKom := features.filter (fun f => pyLower f.kommune == pyLower kommune)
  if byKom = [] then
    { basin_id_input := basin_identifier, kommune_input := kommune,
      fejl := some ("Ingen bassiner fundet for kommune '" ++ kommune ++ "' i filen."),
      attributes := none }
  else
    match byKom.filter (fun f => exactIdentFilter f basin_identifier) with
    | [] =>
      { basin_id_input := basin_identifier, kommune_input := kommune,
        fejl := some ("Bassin ID '" ++ basin_identifier ++ "' ikke fundet i '" ++
          kommune ++ "'."),
        attributes := none }
    | [f] =>
      { basin_id_input := basin_identifier, kommune_input := kommune,
        fejl := none, attributes := some (buildAttrs f.attrs) }
    | sel =>
      { basin_id_input := basin_identifier, kommune_input := kommune,
        fejl := some ("Dataintegritetsfejl: Flere (" ++ toString sel.length ++
          ") bassiner fundet for unikt ID '" ++ basin_identifier ++ "' i '" ++
          kommune ++ "'. Kontakt dataansvarlig."),
        attributes := none }

/-! ## Lemmas: literal substring containment -/

theorem isPrefixB_iff : ∀ (n l : List Char), isPrefixB n l = true ↔ ∃ v, l = n ++ v
  | [], l => by simp [isPrefixB]
  | a :: as, [] => by simp [isPrefixB]
  | a :: as, b :: bs => by
    simp only [isPrefixB, Bool.and_eq_true, beq_iff_eq, isPrefixB_iff as bs,
      List.cons_append, List.cons.injEq]
    constructor
    · rintro ⟨h1, v, h2⟩
      exact ⟨v, h1.symm, h2⟩
    · rintro ⟨v, h1, h2⟩
      exact ⟨h1.symm, v, h2⟩

theorem hasSub_iff : ∀ (n h : List Char), hasSub n h = true ↔ ∃ u v, h = u ++ n ++ v
  | n, [] => by
    simp only [hasSub, isPrefixB_iff]
    constructor
    · rintro ⟨v, h⟩
      exact ⟨[], v, by simpa using h⟩
    · rintro ⟨u, v, h⟩
      refine ⟨v, ?_⟩
      have hu : u = [] := by
        cases u with
        | nil => rfl
        | cons x xs => simp at h
      subst hu
      simpa using h
  | n, c :: cs => by
    simp only [hasSub, Bool.or_eq_true, isPrefixB_iff, hasSub_iff n cs]
    constructor
    · rintro (⟨v, h⟩ | ⟨u, v, h⟩)
      · exact ⟨[], v, by simpa using h⟩
      · exact ⟨c :: u, v, by simp [h]⟩
    · rintro ⟨u, v, h⟩
      cases u with
      | nil => exact Or.inl ⟨v, by simpa using h⟩
      | cons x xs =>
        rw [List.cons_append, List.cons_append] at h
        injection h with h1 h2
        exact Or.inr ⟨xs, v, h2⟩

theorem hasSub_refl (n : List Char) : hasSub n n = true :=
  (hasSub_iff n n).mpr ⟨[], [], by simp⟩

theorem hasSub_prepend (u : List Char) {n l : List Char} (h : hasSub n l = true) :
    hasSub n (u ++ l) = true := by
  obtain ⟨u', v, rfl⟩ := (hasSub_iff n l).mp h
  exact (hasSub_iff n _).mpr ⟨u ++ u', v, by simp⟩

theorem hasSub_append_right (w : List Char) {n l : List Char} (h : hasSub n l = true) :
    hasSub n (l ++ w) = true := by
  obtain ⟨u, v, rfl⟩ := (hasSub_iff n l).mp h
  exact (hasSub_iff n _).mpr ⟨u, v ++ w, by simp⟩

/-! ## Lemmas: the regex fragment -/

theorem matchHere_append : ∀ (ts : List RTok) (l v : List Char),
    matchHere ts l = true → matchHere ts (l ++ v) = true
  | [], _, _, _ => rfl
  | t :: ts, [], v, h => by simp [matchHere] at h
  | t :: ts, c :: cs, v, h => by
    simp only [matchHere, Bool.and_eq_true] at h ⊢
    exact ⟨h.1, matchHere_append ts cs v h.2⟩

theorem reSearch_of_matchHere {ts : List RTok} {l : List Char}
    (h : matchHere ts l = true) : reSearch ts l = true := by
  cases l with
  | nil => exact h
  | cons c cs => simp [reSearch, h]

theorem reSearch_append_right : ∀ {ts : List RTok} (l : List Char) (v : List Char),
    reSearch ts l = true → reSearch ts (l ++ v) = true
  | ts, [], v, h => reSearch_of_matchHere (matchHere_append ts [] v h)
  | ts, c :: cs, v, h => by
    simp only [reSearch, Bool.or_eq_true] at h ⊢
    rcases h with h | h
    · exact Or.inl (matchHere_append ts (c :: cs) v h)
    · exact Or.inr (reSearch_append_right cs v h)

theorem reSearch_prepend : ∀ (u : List Char) {ts : List RTok} {l : List Char},
    reSearch ts l = true → reSearch ts (u ++ l) = true
  | [], _, _, h => h
  | x :: xs, ts, l, h => by
    simp only [List.cons_append, reSearch, Bool.or_eq_true]
    exact Or.inr (reSearch_prepend xs h)

/-- Searching is monotone under taking superstrings: if the pattern matches
somewhere in `s` and `s` occurs inside `t`, the pattern matches in `t`. -/
theorem reSearch_mono {ts : List RTok} {s t : List Char}
    (h1 : reSearch ts s = true) (h2 : hasSub s t = true) : reSearch ts t = true := by
  obtain ⟨u, v, rfl⟩ := (hasSub_iff s t).mp h2
  rw [List.append_assoc]
  exact reSearch_prepend u (reSearch_append_right s v h1)

theorem matchHere_lits : ∀ (n : List Char) (l : List Char),
    matchHere (n.map RTok.lit) l = isPrefixB n l
  | [], _ => rfl
  | a :: as, [] => rfl
  | a :: as, b :: bs => by
    simp only [List.map_cons, matchHere, isPrefixB, tokMatch, matchHere_lits as bs]

/-- On a metacharacter-free pattern the regex search is exactly literal
substring containment. -/
theorem reSearch_lits : ∀ (n : List Char) (h : List Char),
    reSearch (n.map RTok.lit) h = hasSub n h
  | n, [] => matchHere_lits n []
  | n, c :: cs => by
    simp only [reSearch, hasSub, matchHere_lits, reSearch_lits n cs]

/-- A pattern consisting only of regex-literal characters compiles to the
corresponding literal token list. -/
theorem parse_lits : ∀ (l : List Char), (∀ c ∈ l, regexLiteralChar c = true) →
    reParseAux l = some (l.map RTok.lit)
  | [], _ => rfl
  | c :: cs, h => by
    have hc := h c (List.mem_cons_self c cs)
    rw [regexLiteralChar, Bool.not_eq_true'] at hc
    rw [Bool.or_eq_false_iff, Bool.or_eq_false_iff] at hc
    obtain ⟨⟨hc1, hc2⟩, hc3⟩ := hc
    rw [decide_eq_false_iff_not] at hc1 hc2
    rw [reParseAux.eq_def]
    dsimp only
    rw [if_neg hc1, if_neg hc2, if_neg (by simp [hc3] : ¬(metaChar c = true))]
    rw [parse_lits cs (fun x hx => h x (List.mem_cons_of_mem c hx))]
    rfl

theorem reParse_lits {s : String} (h : ∀ c ∈ s.toList, regexLiteralChar c = true) :
    reParse s = some (s.toList.map RTok.lit) :=
  parse_lits s.toList h

/-! ## Lemmas: strings, joined messages, list access -/

theorem strToList_append (s t : String) : (s ++ t).toList = s.toList ++ t.toList := by
  cases s
  cases t
  rfl

theorem strHasS_prepend (u : String) {x s : String} (h : strHasS x s = true) :
    strHasS x (u ++ s) = true := by
  unfold strHasS at h ⊢
  rw [strToList_append]
  exact hasSub_prepend u.toList h

theorem strHasS_left (x t : String) : strHasS x (x ++ t) = true := by
  unfold strHasS
  rw [strToList_append]
  exact hasSub_append_right t.toList (hasSub_refl x.toList)

theorem joinNL_has : ∀ (l : List String) (x : String), x ∈ l →
    strHasS x (joinNL l) = true
  | [], x, hx => absurd hx (List.not_mem_nil x)
  | [a], x, hx => by
    have hxa : x = a := by simpa using hx
    subst hxa
    unfold joinNL strHasS
    exact hasSub_refl _
  | a :: b :: t, x, hx => by
    rcases List.mem_cons.mp hx with h | h
    · subst h
      show strHasS x (x ++ "\n" ++ joinNL (b :: t)) = true
      unfold strHasS
      rw [strToList_append, strToList_append]
      refine (hasSub_iff _ _).mpr ⟨[], "\n".toList ++ (joinNL (b :: t)).toList, ?_⟩
      simp
    · have ih := joinNL_has (b :: t) x h
      show strHasS x (a ++ "\n" ++ joinNL (b :: t)) = true
      unfold strHasS at ih ⊢
      rw [strToList_append, strToList_append]
      rw [List.append_assoc]
      exact hasSub_prepend _ (hasSub_prepend _ ih)

theorem getD_append_lt {α : Type} (d : α) :
    ∀ (l l' : List α) (i : Nat), i < l.length → (l ++ l').getD i d = l.getD i d
  | [], _, i, h => absurd h (by simp)
  | _ :: xs, l', 0, _ => rfl
  | _ :: xs, l', i + 1, h =>
    getD_append_lt d xs l' i (by simpa using h)

theorem getD_append_len {α : Type} (d : α) :
    ∀ (l : List α) (a : α), (l ++ [a]).getD l.length d = a
  | [], _ => rfl
  | _ :: xs, a => getD_append_len d xs a

theorem getD_set_ne {α : Type} (d : α) :
    ∀ (l : List α) (i j : Nat) (a : α), i ≠ j → (l.set i a).getD j d = l.getD j d
  | [], _, _, _, _ => by simp
  | x :: xs, 0, 0, a, h => absurd rfl h
  | x :: xs, 0, j + 1, a, _ => rfl
  | x :: xs, i + 1, 0, a, _ => rfl
  | x :: xs, i + 1, j + 1, a, h =>
    getD_set_ne d xs i j a (fun he => h (by rw [he]))

/-- Transferring a singleton filter result to another predicate that holds
at the singleton and selects nothing but it. -/
theorem filter_switch_singleton {α : Type} {P Q : α → Bool} :
    ∀ {l : List α} {a : α}, l.filter P = [a] → Q a = true →
    (∀ x ∈ l, Q x = true → x = a) → l.filter Q = [a] := by
  intro l
  induction l with
  | nil => intro a h; simp at h
  | cons b t ih =>
    intro a h hQa hQ
    by_cases hb : P b = true
    · rw [List.filter_cons_of_pos hb] at h
      have hba : b = a := (List.cons_eq_cons.mp h).1
      have hft : t.filter P = [] := (List.cons_eq_cons.mp h).2
      subst hba
      rw [List.filter_cons_of_pos hQa]
      have hQt : t.filter Q = [] := by
        rw [List.filter_eq_nil_iff]
        intro x hx hQx
        have hxb : x = b := hQ x (List.mem_cons_of_mem b hx) hQx
        have hPx : P x = true := by rw [hxb]; exact hb
        have : x ∈ t.filter P := List.mem_filter.mpr ⟨hx, hPx⟩
        rw [hft] at this
        exact absurd this (List.not_mem_nil x)
      rw [hQt]
    · rw [List.filter_cons_of_neg hb] at h
      have hPa : P a = true := by
        have ha : a ∈ t.filter P := by rw [h]; exact List.mem_singleton_self a
        exact (List.mem_filter.mp ha).2
      have hba : b ≠ a := fun he => hb (by rw [he]; exact hPa)
      have hQb : ¬Q b = true := fun hQb =>
        hba (hQ b (List.mem_cons_self b t) hQb)
      rw [List.filter_cons_of_neg hQb]
      exact ih h hQa (fun x hx => hQ x (List.mem_cons_of_mem b hx))

/-! ## Lemmas: the resolver's filter structure -/

theorem truthy_of_norm_ne {s : String} (h : pyNormalize (some s) ≠ "") :
    truthy (some s) = true := by
  by_cases hs : s = ""
  · subst hs
    exact absurd rfl h
  · simp [truthy, hs]

/-- A successful filter step is a `List.filter` by a predicate that is
monotone under literal-substring extension of the projected cell. -/
theorem filterStep_ok_elim {rows rows' : List Row} {q : Option String}
    {proj : Row → String} (h : filterStep rows q proj = Except.ok rows') :
    ∃ P : Row → Bool, rows' = rows.filter P ∧
      ∀ x y : Row, P x = true →
        hasSub (pyNormalize (some (proj x))).toList
          (pyNormalize (some (proj y))).toList = true → P y = true := by
  unfold filterStep at h
  by_cases ht : truthy q = true
  · rw [if_pos ht] at h
    cases hp : reParse (pyNormalize q) with
    | none => rw [hp] at h; cases h
    | some toks =>
      rw [hp] at h
      injection h with h'
      refine ⟨_, h'.symm, ?_⟩
      intro x y hx hsub
      exact reSearch_mono hx hsub
  · rw [if_neg ht] at h
    injection h with h'
    exact ⟨fun _ => true, by rw [← h', List.filter_true], fun _ _ _ _ => rfl⟩

/-- A successful resolver body is the classification of a `List.filter` of
the table by a predicate monotone in both normalized cells. -/
theorem rest_ok_elim {rows : List Row} {kq bq : Option String} {out : ResolveOut}
    (h : find_basin_entries_rest rows kq bq = Except.ok out) :
    ∃ P : Row → Bool, out = classify (rows.filter P) ∧
      ∀ x y : Row, P x = true →
        hasSub (pyNormalize (some x.kommune)).toList
          (pyNormalize (some y.kommune)).toList = true →
        hasSub (pyNormalize (some x.frakmt)).toList
          (pyNormalize (some y.frakmt)).toList = true → P y = true := by
  unfold find_basin_entries_rest at h
  cases h1 : filterStep rows kq Row.kommune with
  | error e => rw [h1] at h; cases h
  | ok rows1 =>
    rw [h1] at h
    dsimp only at h
    cases h2 : filterStep rows1 bq Row.frakmt with
    | error e => rw [h2] at h; cases h
    | ok rows2 =>
      rw [h2] at h
      injection h with h'
      obtain ⟨Pk, hr1, monoK⟩ := filterStep_ok_elim h1
      obtain ⟨Pb, hr2, monoB⟩ := filterStep_ok_elim h2
      refine ⟨fun x => Pb x && Pk x, ?_, ?_⟩
      · rw [← h', hr2, hr1, List.filter_filter]
      · intro x y hx hsubK hsubB
        rw [Bool.and_eq_true] at hx
        rw [Bool.and_eq_true]
        exact ⟨monoB x y hx.1 hsubB, monoK x y hx.2 hsubK⟩

/-- Inversion of the classifier at a `found_exact` outcome. -/
theorem classify_foundExact {sel : List Row} {b k : String}
    (h : classify sel = ResolveOut.foundExact b k) :
    ∃ r : Row, sel = [r] ∧ r.frakmt = b ∧ r.kommune = k := by
  match sel with
  | [] => simp [classify] at h
  | [r] =>
    simp only [classify, ResolveOut.foundExact.injEq] at h
    exact ⟨r, rfl, h.1, h.2⟩
  | r1 :: r2 :: t => simp [classify] at h

/-! ## Claim C4 -/

/-- C4 (counterexample): the exactness invariant fails as stated.  On the
table `[{Frakmt "a.", Kommune "Koege"}, {Frakmt "ab", Kommune "Koege"}]` the
query `basin_id_query = "\."` (a regex escape of the dot) resolves to
`found_exact` with identifier `"a."`; re-running the resolver with the
returned exact values makes the returned identifier `"a."` act as a regular
expression whose dot matches any character, so both rows match and the
outcome is `found_multiple`, not `found_exact`. -/
theorem c4_counterexample :
    find_basin_entries_rest [⟨"a.", "Koege"⟩, ⟨"ab", "Koege"⟩] none (some "\\.") =
      Except.ok (ResolveOut.foundExact "a." "Koege") ∧
    statusOf (find_basin_entries_rest [⟨"a.", "Koege"⟩, ⟨"ab", "Koege"⟩]
      (some "Koege") (some "a.")) = "found_multiple" := by
  exact ⟨rfl, rfl⟩

/-- C4 (amended): whenever the resolver body returns `found_exact`, and the
normalized returned identifier and municipality are non-empty and contain
only regex-literal characters (so that the pandas `regex=True` containment
treats them literally), re-running the resolver on the same table with the
returned exact values again yields `found_exact` with identical output. -/
theorem c4_requery_stable_amended (rows : List Row) (kq bq : Option String)
    (b k : String)
    (h : find_basin_entries_rest rows kq bq =
      Except.ok (ResolveOut.foundExact b k))
    (hb : pyNormalize (some b) ≠ "")
    (hbLit : ∀ c ∈ (pyNormalize (some b)).toList, regexLiteralChar c = true)
    (hk : pyNormalize (some k) ≠ "")
    (hkLit : ∀ c ∈ (pyNormalize (some k)).toList, regexLiteralChar c = true) :
    find_basin_entries_rest rows (some k) (some b) =
      Except.ok (ResolveOut.foundExact b k) := by
  obtain ⟨P, hout, mono⟩ := rest_ok_elim h
  obtain ⟨r, hsel, hrb, hrk⟩ := classify_foundExact hout.symm
  have hrmem' : r ∈ rows.filter P := by
    rw [hsel]
    exact List.mem_singleton_self r
  have hPr : P r = true := (List.mem_filter.mp hrmem').2
  have htk : truthy (some k) = true := truthy_of_norm_ne hk
  have htb : truthy (some b) = true := truthy_of_norm_ne hb
  have e1 : filterStep rows (some k) Row.kommune =
      Except.ok (rows.filter (fun x =>
        hasSub (pyNormalize (some k)).toList (pyNormalize (some x.kommune)).toList)) := by
    unfold filterStep
    rw [if_pos htk, reParse_lits hkLit]
    dsimp only
    congr 1
    exact List.filter_congr (fun x _ => reSearch_lits _ _)
  have e2 : ∀ l : List Row, filterStep l (some b) Row.frakmt =
      Except.ok (l.filter (fun x =>
        hasSub (pyNormalize (some b)).toList (pyNormalize (some x.frakmt)).toList)) := by
    intro l
    unfold filterStep
    rw [if_pos htb, reParse_lits hbLit]
    dsimp only
    congr 1
    exact List.filter_congr (fun x _ => reSearch_lits _ _)
  unfold find_basin_entries_rest
  rw [e1]
  dsimp only
  rw [e2]
  dsimp only
  rw [List.filter_filter]
  have hQr : (hasSub (pyNormalize (some b)).toList (pyNormalize (some r.frakmt)).toList
      && hasSub (pyNormalize (some k)).toList (pyNormalize (some r.kommune)).toList) = true := by
    rw [← hrk, ← hrb, Bool.and_eq_true]
    exact ⟨hasSub_refl _, hasSub_refl _⟩
  have hQimp : ∀ x ∈ rows,
      (hasSub (pyNormalize (some b)).toList (pyNormalize (some x.frakmt)).toList
        && hasSub (pyNormalize (some k)).toList (pyNormalize (some x.kommune)).toList) = true →
      x = r := by
    intro x hx hQx
    rw [← hrk, ← hrb, Bool.and_eq_true] at hQx
    have hPx : P x = true := mono r x hPr hQx.2 hQx.1
    have : x ∈ rows.filter P := List.mem_filter.mpr ⟨hx, hPx⟩
    rw [hsel] at this
    exact List.mem_singleton.mp this
  have hfin : rows.filter (fun x =>
      hasSub (pyNormalize (some b)).toList (pyNormalize (some x.frakmt)).toList
        && hasSub (pyNormalize (some k)).toList (pyNormalize (some x.kommune)).toList) = [r] :=
    filter_switch_singleton hsel hQr hQimp
  rw [hfin]
  simp only [classify]
  rw [hrb, hrk]

/-- C4 (witness): the amended re-query stability at a concrete registry. -/
theorem c4_amended_witness :
    find_basin_entries_rest [⟨"abc", "Koege"⟩] (some "Koege") (some "abc") =
      Except.ok (ResolveOut.foundExact "abc" "Koege") :=
  c4_requery_stable_amended [⟨"abc", "Koege"⟩] none (some "abc") "abc" "Koege"
    (by rfl) (by decide) (by decide) (by decide) (by decide)

/-! ## Claim C1 -/

/-- C1 (counterexample): the exact-equality selection convention does not
hold for every spatial tool.  `generate_map.py`'s `find_best_basin_match`
selects, for identifier `"2"`, a feature none of whose three identifier
fields equals `"2"` — it is selected because the lowercased `Frakmt` cell
`"20-0 40"` merely contains `"2"`. -/
theorem c1_counterexample :
    find_best_basin_match [⟨"7", "20-0 40", "x", "K", []⟩] "2" =
      Except.ok [⟨"7", "20-0 40", "x", "K", []⟩] ∧
    exactIdentFilter ⟨"7", "20-0 40", "x", "K", []⟩ "2" = false := by
  exact ⟨rfl, rfl⟩

/-- C1 (amended): the analysis tools (`check_natura2000`,
`get_basin_attributes`, `check_protected_nature`, `check_species_bilag_iv`,
`check_vp3_streams`) select a feature from a municipality-filtered
collection iff `str(New_FID)`, `Frakmt` or `Stedfaestelse` equals the
resolved identifier exactly; `generate_map`'s `find_best_basin_match`
instead selects by case-insensitive regex containment, trying the three
columns sequentially, so a selected feature is only guaranteed to have the
lowercase-stripped identifier match inside one of its lowercased columns. -/
theorem c1_exact_filter_amended (fs : List Feature) (ident : String) (f : Feature) :
    (f ∈ fs.filter (fun g => exactIdentFilter g ident) ↔
      f ∈ fs ∧ (f.newFID = ident ∨ f.frakmt = ident ∨ f.stedfaestelse = ident)) ∧
    (∀ m, find_best_basin_match fs ident = Except.ok m → f ∈ m →
      f ∈ fs ∧ ∃ toks, reParse (pyStrip (pyLower ident)) = some toks ∧
        (reSearch toks (pyLower f.newFID).toList = true ∨
         reSearch toks (pyLower f.frakmt).toList = true ∨
         reSearch toks (pyLower f.stedfaestelse).toList = true)) := by
  constructor
  · rw [List.mem_filter]
    unfold exactIdentFilter
    simp only [Bool.or_eq_true, beq_iff_eq, or_assoc]
  · intro m hm hf
    unfold find_best_basin_match at hm
    dsimp only at hm
    cases hp : reParse (pyStrip (pyLower ident)) with
    | none => rw [hp] at hm; cases hm
    | some toks =>
      rw [hp] at hm
      dsimp only at hm
      split_ifs at hm with h1 h2 h3
      · injection hm with hm'
        rw [← hm'] at hf
        exact ⟨(List.mem_filter.mp hf).1,
          toks, rfl, Or.inl (List.mem_filter.mp hf).2⟩
      · injection hm with hm'
        rw [← hm'] at hf
        exact ⟨(List.mem_filter.mp hf).1,
          toks, rfl, Or.inr (Or.inl (List.mem_filter.mp hf).2)⟩
      · injection hm with hm'
        rw [← hm'] at hf
        exact ⟨(List.mem_filter.mp hf).1,
          toks, rfl, Or.inr (Or.inr (List.mem_filter.mp hf).2)⟩
      · injection hm with hm'
        rw [← hm'] at hf
        exact absurd hf (List.not_mem_nil f)

/-- C1 (witness): both halves of the amended convention at a concrete
feature. -/
theorem c1_amended_witness :
    (⟨"7", "a", "b", "K", []⟩ : Feature) ∈
      List.filter (fun g => exactIdentFilter g "7") [⟨"7", "a", "b", "K", []⟩] ∧
    ((⟨"7", "a", "b", "K", []⟩ : Feature) ∈ ([⟨"7", "a", "b", "K", []⟩] : List Feature) ∧
      ∃ toks, reParse (pyStrip (pyLower "7")) = some toks ∧
        (reSearch toks (pyLower "7").toList = true ∨
         reSearch toks (pyLower "a").toList = true ∨
         reSearch toks (pyLower "b").toList = true)) := by
  constructor
  · exact (c1_exact_filter_amended [⟨"7", "a", "b", "K", []⟩] "7"
      ⟨"7", "a", "b", "K", []⟩).1.mpr ⟨by decide, Or.inl rfl⟩
  · exact (c1_exact_filter_amended [⟨"7", "a", "b", "K", []⟩] "7"
      ⟨"7", "a", "b", "K", []⟩).2 [⟨"7", "a", "b", "K", []⟩] rfl (by decide)

/-! ## Claims C2 and C3 (failing-input evaluations) -/

/-- C2 (failing input): the resolver does not return a structured status for
every input — the query `basin_id_query = "("` makes the pandas
`str.contains` call compile `"("` as a regular expression, which raises
`re.error` past the resolver's boundary even though the registry loaded
fine; the model reifies the escaped exception as `Except.error`. -/
theorem c2_regex_exception_escapes :
    (find_basin_entries_main
      ⟨true, Except.ok ⟨["Kommune", "Frakmt"], [[some "Koege", some "20-0"]]⟩,
        Except.error "io"⟩
      0 ⟨[], ⟨none, 0⟩⟩ none (some "(")).1 = Except.error "re.error" := by
  rfl

/-- C3 (failing input): a returned row need not contain the normalized query
as a literal substring — with the single-row table `{Frakmt "xyz"}` the
query `"."` is compiled as a regex whose dot matches any character, so the
row is returned as `found_exact` although `"xyz"` does not contain the
literal substring `"."`. -/
theorem c3_regex_not_literal_substring :
    find_basin_entries_rest [⟨"xyz", "K"⟩] none (some ".") =
      Except.ok (ResolveOut.foundExact "xyz" "K") ∧
    strHasS (pyNormalize (some ".")) (pyNormalize (some "xyz")) = false := by
  exact ⟨rfl, rfl⟩

/-! ## Claim C5 -/

/-- C5: whenever the resolver body returns `found_multiple`, the candidate
list is exactly the map of the filtered table rows (each matching row
occurrence appearing exactly once, in table order, with its exact stored
identifier and municipality), `count` equals its length, and the message
carries the inline enumeration of every candidate exactly when the count is
at most 15, otherwise only the bare count message. -/
theorem c5_found_multiple_complete (rows : List Row) (kq bq : Option String)
    (n : Nat) (msg : String) (ms : List (String × String))
    (h : find_basin_entries_rest rows kq bq =
      Except.ok (ResolveOut.foundMultiple n msg ms)) :
    ∃ rows1 sel : List Row,
      filterStep rows kq Row.kommune = Except.ok rows1 ∧
      filterStep rows1 bq Row.frakmt = Except.ok sel ∧
      ms = sel.map candOf ∧ n = sel.length ∧ n = ms.length ∧ 2 ≤ n ∧
      msg = mkMessage n ms ∧
      (n ≤ 15 → ∀ p ∈ ms, strHasS (candLine p) msg = true) ∧
      (15 < n → msg = "Fandt " ++ toString n ++ " mulige bassiner. Præciser venligst.") := by
  unfold find_basin_entries_rest at h
  cases h1 : filterStep rows kq Row.kommune with
  | error e => rw [h1] at h; cases h
  | ok rows1 =>
    rw [h1] at h
    dsimp only at h
    cases h2 : filterStep rows1 bq Row.frakmt with
    | error e => rw [h2] at h; cases h
    | ok sel =>
      rw [h2] at h
      injection h with h'
      cases sel with
      | nil => simp [classify] at h'
      | cons r1 rest =>
      cases rest with
      | nil => simp [classify] at h'
      | cons r2 t =>
      simp only [classify, ResolveOut.foundMultiple.injEq] at h'
      obtain ⟨hn, hmsg, hms⟩ := h'
      subst hn
      subst hms
      subst hmsg
      refine ⟨rows1, r1 :: r2 :: t, rfl, h2, rfl, rfl, by simp, by simp, rfl, ?_, ?_⟩
      · intro hle p hp
        unfold mkMessage
        dsimp only
        rw [if_pos hle]
        apply strHasS_prepend
        exact joinNL_has _ _ (List.mem_map_of_mem candLine hp)
      · intro hgt
        unfold mkMessage
        dsimp only
        rw [if_neg (by omega)]

/-- C5 (witness): the completeness facts at a concrete two-row registry. -/
theorem c5_witness :
    ∃ rows1 sel : List Row,
      filterStep [⟨"a", "K"⟩, ⟨"b", "K"⟩] (some "k") Row.kommune = Except.ok rows1 ∧
      filterStep rows1 none Row.frakmt = Except.ok sel ∧
      [("a", "K"), ("b", "K")] = sel.map candOf ∧ 2 = sel.length ∧
      2 = ([("a", "K"), ("b", "K")] : List (String × String)).length ∧ 2 ≤ 2 ∧
      "Fandt 2 mulige bassiner. Præciser venligst.\n- ID: a (K)\n- ID: b (K)" =
        mkMessage 2 [("a", "K"), ("b", "K")] ∧
      (2 ≤ 15 → ∀ p ∈ ([("a", "K"), ("b", "K")] : List (String × String)),
        strHasS (candLine p)
          "Fandt 2 mulige bassiner. Præciser venligst.\n- ID: a (K)\n- ID: b (K)" = true) ∧
      (15 < 2 →
        "Fandt 2 mulige bassiner. Præciser venligst.\n- ID: a (K)\n- ID: b (K)" =
          "Fandt " ++ toString 2 ++ " mulige bassiner. Præciser venligst.") :=
  c5_found_multiple_complete [⟨"a", "K"⟩, ⟨"b", "K"⟩] (some "k") none 2
    "Fandt 2 mulige bassiner. Præciser venligst.\n- ID: a (K)\n- ID: b (K)"
    [("a", "K"), ("b", "K")] (by rfl)

/-! ## Claim C9 -/

/-- C9: with both queries absent or empty (Python-falsy) the resolver
returns `no_query` without touching the cache state and without attempting
any read of the registry file (empty attempt trace), for every file-system
state — including one where the registry file is missing; and an
empty-string query supplied alongside another query behaves exactly like an
absent query (no filter applied for it). -/
theorem c9_no_query_short_circuit :
    (∀ (fs : FS) (now : Nat) (σ : LState),
      find_basin_entries_main fs now σ none none =
        (Except.ok (ResolveOut.noQuery "Angiv kommune eller bassin ID."), σ, []) ∧
      find_basin_entries_main fs now σ (some "") none =
        (Except.ok (ResolveOut.noQuery "Angiv kommune eller bassin ID."), σ, []) ∧
      find_basin_entries_main fs now σ none (some "") =
        (Except.ok (ResolveOut.noQuery "Angiv kommune eller bassin ID."), σ, []) ∧
      find_basin_entries_main fs now σ (some "") (some "") =
        (Except.ok (ResolveOut.noQuery "Angiv kommune eller bassin ID."), σ, [])) ∧
    (∀ (fs : FS) (now : Nat) (σ : LState) (q : Option String),
      find_basin_entries_main fs now σ (some "") q =
        find_basin_entries_main fs now σ none q ∧
      find_basin_entries_main fs now σ q (some "") =
        find_basin_entries_main fs now σ q none) := by
  constructor
  · intro fs now σ
    exact ⟨rfl, rfl, rfl, rfl⟩
  · intro fs now σ q
    constructor
    · rfl
    · rfl

/-! ## Claim C10 -/

/-- C10: when more than one feature inside the municipality pre-filter
matches the exact identifier across the three identifier columns,
`get_basin_attributes_main` returns the data-integrity error naming the
match count (and no attributes); attributes are returned only when exactly
one feature matches. -/
theorem c10_integrity_guard (features : List Feature) (ident kommune : String) :
    (features.filter (fun f => pyLower f.kommune == pyLower kommune) ≠ [] →
      1 < ((features.filter (fun f => pyLower f.kommune == pyLower kommune)).filter
        (fun f => exactIdentFilter f ident)).length →
      (get_basin_attributes_main features ident kommune).fejl =
        some ("Dataintegritetsfejl: Flere (" ++
          toString ((features.filter (fun f => pyLower f.kommune == pyLower kommune)).filter
            (fun f => exactIdentFilter f ident)).length ++
          ") bassiner fundet for unikt ID '" ++ ident ++ "' i '" ++ kommune ++
          "'. Kontakt dataansvarlig.") ∧
      (get_basin_attributes_main features ident kommune).attributes = none) ∧
    ((get_basin_attributes_main features ident kommune).attributes.isSome = true →
      features.filter (fun f => pyLower f.kommune == pyLower kommune) ≠ [] ∧
      ((features.filter (fun f => pyLower f.kommune == pyLower kommune)).filter
        (fun f => exactIdentFilter f ident)).length = 1) := by
  unfold get_basin_attributes_main
  by_cases hk : features.filter (fun f => pyLower f.kommune == pyLower kommune) = []
  · rw [if_pos hk]
    exact ⟨fun hne _ => absurd hk hne, fun hs => by cases hs⟩
  · rw [if_neg hk]
    cases hsel : (features.filter (fun f => pyLower f.kommune == pyLower kommune)).filter
        (fun f => exactIdentFilter f ident) with
    | nil =>
      refine ⟨fun _ hlen => by simp at hlen, fun hs => by cases hs⟩
    | cons f1 rest =>
      cases rest with
      | nil =>
        refine ⟨fun _ hlen => by simp at hlen, fun _ => ⟨hk, rfl⟩⟩
      | cons f2 t =>
        refine ⟨fun _ _ => ⟨rfl, rfl⟩, fun hs => by cases hs⟩

/-- C10 (witness): the integrity error on a concrete duplicate-identifier
layer. -/
theorem c10_witness :
    (get_basin_attributes_main
      [⟨"1", "X", "s", "K", []⟩, ⟨"1", "Y", "t", "K", []⟩] "1" "k").fejl =
      some "Dataintegritetsfejl: Flere (2) bassiner fundet for unikt ID '1' i 'k'. Kontakt dataansvarlig." ∧
    (get_basin_attributes_main
      [⟨"1", "X", "s", "K", []⟩, ⟨"1", "Y", "t", "K", []⟩] "1" "k").attributes = none := by
  have h := (c10_integrity_guard
    [⟨"1", "X", "s", "K", []⟩, ⟨"1", "Y", "t", "K", []⟩] "1" "k").1
    (by decide) (by decide)
  exact ⟨h.1.trans (by rfl), h.2⟩

/-! ## Lemmas: the load path -/

/-- With an empty or stale cache, `_load_data` takes the fresh-load path. -/
theorem loadData_goes_fresh {fs : FS} {n : Nat} {σ : LState}
    (h : σ.cache.dfRef = none ∨ 3600 ≤ n - σ.cache.loadTime) :
    loadData fs n σ = loadFresh fs n σ := by
  unfold loadData
  cases hdf : σ.cache.dfRef with
  | none => rfl
  | some r =>
    rcases h with h | h
    · rw [hdf] at h
      exact Option.noConfusion h
    · dsimp only
      rw [if_neg (by omega : ¬(n - σ.cache.loadTime < 3600))]

/-- A fresh-load path with an empty attempt trace returned no table (the
only trace-free outcome is the missing-file failure). -/
theorem loadFresh_trace_to_none {fs : FS} {n : Nat} {σ : LState}
    (h : (loadFresh fs n σ).2.2 = ([] : List String)) :
    (loadFresh fs n σ).1 = none := by
  unfold loadFresh at h ⊢
  by_cases he : fs.fileExists = false
  · rw [if_pos he]
  · rw [if_neg he] at h ⊢
    cases h1 : tryRead fs.readCp1252 with
    | ok t =>
      rw [h1] at h
      simp [allocT] at h
    | error e =>
      cases h2 : tryRead fs.readLatin1 with
      | ok t =>
        rw [h1, h2] at h
        simp [allocT] at h
      | error e2 =>
        rw [h1, h2] at h

/-- Inversion of a failing fresh-load: either the file is missing (state
untouched, nothing attempted) or both read attempts failed (cached table
cleared, heap untouched). -/
theorem loadFresh_none_elim {fs : FS} {n : Nat} {σ σ' : LState} {tr : List String}
    (h : loadFresh fs n σ = (none, σ', tr)) :
    (fs.fileExists = false ∧ σ' = σ ∧ tr = []) ∨
    (σ'.cache.dfRef = none ∧ σ'.heap = σ.heap ∧ tr = ["cp1252", "latin-1"]) := by
  unfold loadFresh at h
  by_cases he : fs.fileExists = false
  · rw [if_pos he] at h
    injection h with ha hb
    injection hb with hb1 hb2
    exact Or.inl ⟨he, hb1.symm, hb2.symm⟩
  · rw [if_neg he] at h
    cases h1 : tryRead fs.readCp1252 with
    | ok t =>
      rw [h1] at h
      simp [allocT] at h
    | error e =>
      rw [h1] at h
      cases h2 : tryRead fs.readLatin1 with
      | ok t =>
        rw [h2] at h
        simp [allocT] at h
      | error e2 =>
        rw [h2] at h
        injection h with ha hb
        injection hb with hb1 hb2
        refine Or.inr ⟨?_, ?_, hb2.symm⟩
        · rw [← hb1]
        · rw [← hb1]

/-- Inversion of a successful fresh load: the returned reference is the
copy allocated after the cached table. -/
theorem loadFresh_some_spec {fs : FS} {n : Nat} {σ σ' : LState} {r : Nat}
    {tr : List String} (h : loadFresh fs n σ = (some r, σ', tr)) :
    ∃ t, r = σ.heap.length + 1 ∧ σ'.heap = (σ.heap ++ [t]) ++ [t] ∧
      σ'.cache = { dfRef := some σ.heap.length, loadTime := n } := by
  unfold loadFresh at h
  by_cases he : fs.fileExists = false
  · rw [if_pos he] at h
    simp at h
  · rw [if_neg he] at h
    cases h1 : tryRead fs.readCp1252 with
    | ok t =>
      rw [h1] at h
      dsimp only [allocT] at h
      injection h with ha hb
      injection hb with hb1 hb2
      injection ha with ha'
      refine ⟨t, ?_, ?_, ?_⟩
      · rw [← ha']
        simp
      · rw [← hb1]
      · rw [← hb1]
    | error e =>
      rw [h1] at h
      cases h2 : tryRead fs.readLatin1 with
      | ok t =>
        rw [h2] at h
        dsimp only [allocT] at h
        injection h with ha hb
        injection hb with hb1 hb2
        injection ha with ha'
        refine ⟨t, ?_, ?_, ?_⟩
        · rw [← ha']
          simp
        · rw [← hb1]
        · rw [← hb1]
      | error e2 =>
        rw [h2] at h
        simp at h

/-- Specification of a successful `_load_data` call on a well-formed state:
the returned reference is fresh, the old heap cells are untouched, and the
cache holds a distinct reference with the same contents as the returned
copy. -/
theorem loadData_some_spec {fs : FS} {n : Nat} {σ σ' : LState} {r : Nat}
    {tr : List String}
    (hv : ∀ rc, σ.cache.dfRef = some rc → rc < σ.heap.length)
    (h : loadData fs n σ = (some r, σ', tr)) :
    σ.heap.length ≤ r ∧ r < σ'.heap.length ∧
    (∀ i, i < σ.heap.length → σ'.heap.getD i [] = σ.heap.getD i []) ∧
    ∃ rc, σ'.cache.dfRef = some rc ∧ rc ≠ r ∧ rc < σ'.heap.length ∧
      readT σ' rc = readT σ' r ∧
      (σ.cache.dfRef = some rc ∨ σ.heap.length ≤ rc) := by
  unfold loadData at h
  cases hdf : σ.cache.dfRef with
  | some r0 =>
    rw [hdf] at h
    dsimp only at h
    by_cases hst : n - σ.cache.loadTime < 3600
    · rw [if_pos hst] at h
      dsimp only [allocT] at h
      injection h with ha hb
      injection hb with hb1 hb2
      injection ha with ha'
      have hr : r = σ.heap.length := ha'.symm
      subst hr
      have hr0 : r0 < σ.heap.length := hv r0 hdf
      refine ⟨le_refl _, ?_, ?_, r0, ?_, ?_, ?_, ?_, Or.inl rfl⟩
      · rw [← hb1]
        simp
      · intro i hi
        rw [← hb1]
        exact getD_append_lt [] σ.heap _ i hi
      · rw [← hb1]
        exact hdf
      · omega
      · rw [← hb1]
        simp only [List.length_append, List.length_cons, List.length_nil]
        omega
      · rw [← hb1]
        unfold readT
        dsimp only
        rw [getD_append_lt [] σ.heap _ r0 hr0, getD_append_len]
    · rw [if_neg hst] at h
      obtain ⟨t, hr, hheap, hcache⟩ := loadFresh_some_spec h
      subst hr
      refine ⟨by omega, ?_, ?_, σ.heap.length, ?_, by omega, ?_, ?_, Or.inr (le_refl _)⟩
      · rw [hheap]
        simp
      · intro i hi
        rw [hheap]
        rw [getD_append_lt [] (σ.heap ++ [t]) _ i (by simp; omega),
          getD_append_lt [] σ.heap _ i hi]
      · rw [hcache]
      · rw [hheap]
        simp
      · unfold readT
        rw [hheap]
        have e1 : ((σ.heap ++ [t]) ++ [t]).getD σ.heap.length [] = t := by
          rw [getD_append_lt [] (σ.heap ++ [t]) _ σ.heap.length (by simp),
            getD_append_len]
        have e2 : ((σ.heap ++ [t]) ++ [t]).getD (σ.heap.length + 1) [] = t := by
          have : (σ.heap ++ [t]).length = σ.heap.length + 1 := by simp
          rw [← this, getD_append_len]
        rw [e1, e2]
  | none =>
    rw [hdf] at h
    dsimp only at h
    obtain ⟨t, hr, hheap, hcache⟩ := loadFresh_some_spec h
    subst hr
    refine ⟨by omega, ?_, ?_, σ.heap.length, ?_, by omega, ?_, ?_, Or.inr (le_refl _)⟩
    · rw [hheap]
      simp
    · intro i hi
      rw [hheap]
      rw [getD_append_lt [] (σ.heap ++ [t]) _ i (by simp; omega),
        getD_append_lt [] σ.heap _ i hi]
    · rw [hcache]
    · rw [hheap]
      simp
    · unfold readT
      rw [hheap]
      have e1 : ((σ.heap ++ [t]) ++ [t]).getD σ.heap.length [] = t := by
        rw [getD_append_lt [] (σ.heap ++ [t]) _ σ.heap.length (by simp),
          getD_append_len]
      have e2 : ((σ.heap ++ [t]) ++ [t]).getD (σ.heap.length + 1) [] = t := by
        have : (σ.heap ++ [t]).length = σ.heap.length + 1 := by simp
        rw [← this, getD_append_len]
      rw [e1, e2]

/-! ## Claim C6 -/

/-- C6 (counterexample): a load whose primary read succeeds but lacks the
required columns is retried under the fallback encoding (the attempt trace
records both encodings), and the fallback can even succeed — here the
latin-1 parse does carry both columns, so the load returns a table instead
of failing fatally. -/
theorem c6_counterexample :
    (loadData ⟨true, Except.ok ⟨["A"], [[some "x"]]⟩,
      Except.ok ⟨["Kommune", "Frakmt"], [[some "K", some "F"]]⟩⟩
      0 ⟨[], ⟨none, 0⟩⟩).2.2 = ["cp1252", "latin-1"] ∧
    (loadData ⟨true, Except.ok ⟨["A"], [[some "x"]]⟩,
      Except.ok ⟨["Kommune", "Frakmt"], [[some "K", some "F"]]⟩⟩
      0 ⟨[], ⟨none, 0⟩⟩).1 = some 1 := by
  exact ⟨rfl, rfl⟩

/-- C6 (amended): when the registry file is read successfully under the
primary encoding but a required column is missing, the `ValueError` raised
inside the `try` block is handled like a read failure, so the fallback
encoding IS attempted (the trace records both attempts); the load fails
only if that fallback attempt also fails or also lacks the columns, and it
succeeds when the fallback parse carries both columns. -/
theorem c6_fallback_retry_amended (fs : FS) (n : Nat) (σ : LState) (raw : RawCSV)
    (hmiss : σ.cache.dfRef = none ∨ 3600 ≤ n - σ.cache.loadTime)
    (hex : fs.fileExists = true)
    (hok : fs.readCp1252 = Except.ok raw)
    (hcols : hasRequiredCols (stripRawHeader raw) = false) :
    (loadData fs n σ).2.2 = ["cp1252", "latin-1"] ∧
    (∀ t, tryRead fs.readLatin1 = Except.ok t →
      ∃ r σ', loadData fs n σ = (some r, σ', ["cp1252", "latin-1"]) ∧
        readT σ' r = t) ∧
    (∀ e, tryRead fs.readLatin1 = Except.error e → (loadData fs n σ).1 = none) := by
  rw [loadData_goes_fresh hmiss]
  unfold loadFresh
  rw [if_neg (by simp [hex])]
  have h1 : tryRead fs.readCp1252 = Except.error "CSV mangler paakraevede kolonner" := by
    unfold tryRead
    rw [hok]
    dsimp only
    rw [if_neg (by simp [hcols])]
  rw [h1]
  dsimp only
  refine ⟨?_, ?_, ?_⟩
  · cases h2 : tryRead fs.readLatin1 with
    | ok t => rfl
    | error e => rfl
  · intro t h2
    rw [h2]
    dsimp only [allocT]
    refine ⟨_, _, rfl, ?_⟩
    unfold readT
    dsimp only
    exact getD_append_len [] _ t
  · intro e h2
    rw [h2]

/-- C6 (witness): the amended fallback-retry behavior at a concrete state. -/
theorem c6_amended_witness :
    (loadData ⟨true, Except.ok ⟨["A"], [[some "x"]]⟩,
      Except.ok ⟨["Kommune", "Frakmt"], [[some "K", some "F"]]⟩⟩
      0 ⟨[], ⟨none, 0⟩⟩).2.2 = ["cp1252", "latin-1"] ∧
    (∀ t, tryRead (Except.ok ⟨["Kommune", "Frakmt"], [[some "K", some "F"]]⟩) =
        Except.ok t →
      ∃ r σ', loadData ⟨true, Except.ok ⟨["A"], [[some "x"]]⟩,
          Except.ok ⟨["Kommune", "Frakmt"], [[some "K", some "F"]]⟩⟩
          0 ⟨[], ⟨none, 0⟩⟩ = (some r, σ', ["cp1252", "latin-1"]) ∧
        readT σ' r = t) ∧
    (∀ e, tryRead (Except.ok ⟨["Kommune", "Frakmt"], [[some "K", some "F"]]⟩) =
        Except.error e →
      (loadData ⟨true, Except.ok ⟨["A"], [[some "x"]]⟩,
        Except.ok ⟨["Kommune", "Frakmt"], [[some "K", some "F"]]⟩⟩
        0 ⟨[], ⟨none, 0⟩⟩).1 = none) :=
  c6_fallback_retry_amended
    ⟨true, Except.ok ⟨["A"], [[some "x"]]⟩,
      Except.ok ⟨["Kommune", "Frakmt"], [[some "K", some "F"]]⟩⟩
    0 ⟨[], ⟨none, 0⟩⟩ ⟨["A"], [[some "x"]]⟩
    (Or.inl rfl) rfl rfl (by decide)

/-! ## Claim C7 -/

/-- C7 (counterexample): a failed load attempt does not always leave the
cache empty.  With a stale cached table (loaded at time 0, queried at time
3600) and the registry file now absent from disk, the load fails (returns
no table) but the cache still holds the old table reference. -/
theorem c7_counterexample :
    loadData ⟨false, Except.error "io", Except.error "io"⟩ 3600
      ⟨[[⟨"f", "k"⟩]], ⟨some 0, 0⟩⟩ =
      (none, ⟨[[⟨"f", "k"⟩]], ⟨some 0, 0⟩⟩, []) ∧
    (⟨[[⟨"f", "k"⟩]], ⟨some 0, 0⟩⟩ : LState).cache.dfRef ≠ none := by
  exact ⟨rfl, by simp⟩

/-- C7 (amended): after a failed load attempt the cache is never partially
populated: when the failure happened while reading (both encoding attempts
failing, including the missing-columns case) the cached table is cleared;
when the registry file is absent the state is left unchanged — possibly
still holding a stale table — and in every failure case no later request is
served from the cache: a subsequent call that attempts no read (empty
trace) returns no table. -/
theorem c7_failed_load_amended (fs : FS) (n : Nat) (σ σ' : LState)
    (tr : List String) (h : loadData fs n σ = (none, σ', tr)) :
    (σ'.cache.dfRef = none ∨ (σ' = σ ∧ fs.fileExists = false)) ∧
    (∀ n', n ≤ n' → (loadData fs n' σ').2.2 = ([] : List String) →
      (loadData fs n' σ').1 = none) := by
  cases hdf : σ.cache.dfRef with
  | none =>
    have hl : loadFresh fs n σ = (none, σ', tr) := by
      rw [← loadData_goes_fresh (Or.inl hdf)]
      exact h
    rcases loadFresh_none_elim hl with ⟨he, hσ, htr⟩ | ⟨hdf', hheap, htr⟩
    · subst hσ
      refine ⟨Or.inl hdf, ?_⟩
      intro n' _ htrace
      rw [loadData_goes_fresh (Or.inl hdf)] at htrace ⊢
      exact loadFresh_trace_to_none htrace
    · refine ⟨Or.inl hdf', ?_⟩
      intro n' _ htrace
      rw [loadData_goes_fresh (Or.inl hdf')] at htrace ⊢
      exact loadFresh_trace_to_none htrace
  | some r0 =>
    have hst : ¬(n - σ.cache.loadTime < 3600) := by
      intro hlt
      unfold loadData at h
      rw [hdf] at h
      dsimp only at h
      rw [if_pos hlt] at h
      simp [allocT] at h
    have hl : loadFresh fs n σ = (none, σ', tr) := by
      rw [← loadData_goes_fresh (Or.inr (by omega))]
      exact h
    rcases loadFresh_none_elim hl with ⟨he, hσ, htr⟩ | ⟨hdf', hheap, htr⟩
    · subst hσ
      refine ⟨Or.inr ⟨rfl, he⟩, ?_⟩
      intro n' hn' htrace
      rw [loadData_goes_fresh (Or.inr (by omega))] at htrace ⊢
      exact loadFresh_trace_to_none htrace
    · refine ⟨Or.inl hdf', ?_⟩
      intro n' _ htrace
      rw [loadData_goes_fresh (Or.inl hdf')] at htrace ⊢
      exact loadFresh_trace_to_none htrace

/-- C7 (witness): the amended failed-load behavior at a concrete state with
both read attempts failing. -/
theorem c7_amended_witness :
    ((⟨[[⟨"f", "k"⟩]], ⟨none, 0⟩⟩ : LState).cache.dfRef = none ∨
      ((⟨[[⟨"f", "k"⟩]], ⟨none, 0⟩⟩ : LState) = ⟨[[⟨"f", "k"⟩]], ⟨some 0, 0⟩⟩ ∧
        (⟨true, Except.error "io", Except.error "io"⟩ : FS).fileExists = false)) ∧
    (∀ n', 3600 ≤ n' →
      (loadData ⟨true, Except.error "io", Except.error "io"⟩ n'
        ⟨[[⟨"f", "k"⟩]], ⟨none, 0⟩⟩).2.2 = ([] : List String) →
      (loadData ⟨true, Except.error "io", Except.error "io"⟩ n'
        ⟨[[⟨"f", "k"⟩]], ⟨none, 0⟩⟩).1 = none) :=
  c7_failed_load_amended ⟨true, Except.error "io", Except.error "io"⟩ 3600
    ⟨[[⟨"f", "k"⟩]], ⟨some 0, 0⟩⟩ ⟨[[⟨"f", "k"⟩]], ⟨none, 0⟩⟩ ["cp1252", "latin-1"] rfl

/-! ## Claim C8 -/

/-- C8: two successful `_load_data` calls, the second within the cache
duration of the recorded load, return references to table snapshots that
are equal in content and distinct from each other and from the shared
cached table: mutating either returned snapshot changes neither the other
snapshot nor the cached table.  (`hv` is the well-formedness of the
starting state: a cached reference, if any, points into the heap.) -/
theorem c8_cache_copy_coherence (fs : FS) (n1 n2 : Nat) (σ0 σ1 σ2 : LState)
    (r1 r2 : Nat) (tr1 tr2 : List String)
    (hv : ∀ rc, σ0.cache.dfRef = some rc → rc < σ0.heap.length)
    (h1 : loadData fs n1 σ0 = (some r1, σ1, tr1))
    (h2 : loadData fs n2 σ1 = (some r2, σ2, tr2))
    (hdur : n2 - σ1.cache.loadTime < 3600) :
    readT σ2 r1 = readT σ2 r2 ∧ r1 ≠ r2 ∧
    (∀ t, readT (writeT σ2 r1 t) r2 = readT σ2 r2 ∧
      readT (writeT σ2 r2 t) r1 = readT σ2 r1) ∧
    (∀ rc, σ2.cache.dfRef = some rc → rc ≠ r1 ∧ rc ≠ r2 ∧
      ∀ t, readT (writeT σ2 r1 t) rc = readT σ2 rc ∧
        readT (writeT σ2 r2 t) rc = readT σ2 rc) := by
  obtain ⟨hle1, hlt1, hpres1, rc1, hrc1, hne1, hlt1c, heq1, _⟩ :=
    loadData_some_spec hv h1
  unfold loadData at h2
  rw [hrc1] at h2
  dsimp only at h2
  rw [if_pos hdur] at h2
  dsimp only [allocT] at h2
  injection h2 with ha hb
  injection hb with hb1 hb2
  injection ha with ha2
  have hr2 : r2 = σ1.heap.length := ha2.symm
  subst hr2
  have hread2 : readT σ2 (σ1.heap.length) = readT σ1 rc1 := by
    rw [← hb1]
    unfold readT
    dsimp only
    exact getD_append_len [] σ1.heap (readT σ1 rc1)
  have hread1 : readT σ2 r1 = readT σ1 r1 := by
    rw [← hb1]
    unfold readT
    dsimp only
    exact getD_append_lt [] σ1.heap _ r1 hlt1
  have hne12 : r1 ≠ σ1.heap.length := by omega
  have hcache2 : σ2.cache.dfRef = some rc1 := by
    rw [← hb1]
    exact hrc1
  refine ⟨?_, hne12, ?_, ?_⟩
  · rw [hread1, hread2, heq1]
  · intro t
    constructor
    · unfold readT writeT
      dsimp only
      exact getD_set_ne [] σ2.heap r1 _ t hne12
    · unfold readT writeT
      dsimp only
      exact getD_set_ne [] σ2.heap _ r1 t (Ne.symm hne12)
  · intro rc hrc
    rw [hcache2] at hrc
    injection hrc with hrc1'
    subst hrc1'
    refine ⟨hne1, by omega, ?_⟩
    intro t
    constructor
    · unfold readT writeT
      dsimp only
      exact getD_set_ne [] σ2.heap r1 rc1 t (Ne.symm hne1)
    · unfold readT writeT
      dsimp only
      exact getD_set_ne [] σ2.heap _ rc1 t (by omega)

/-- C8 (witness): the coherence facts at a concrete state — an initial
fresh load at time 0 and a cache-served load at time 10. -/
theorem c8_witness :
    readT ⟨[[⟨"F", "K"⟩], [⟨"F", "K"⟩], [⟨"F", "K"⟩]], ⟨some 0, 0⟩⟩ 1 =
      readT ⟨[[⟨"F", "K"⟩], [⟨"F", "K"⟩], [⟨"F", "K"⟩]], ⟨some 0, 0⟩⟩ 2 ∧
    (1 : Nat) ≠ 2 ∧
    (∀ t, readT (writeT ⟨[[⟨"F", "K"⟩], [⟨"F", "K"⟩], [⟨"F", "K"⟩]], ⟨some 0, 0⟩⟩ 1 t) 2 =
        readT ⟨[[⟨"F", "K"⟩], [⟨"F", "K"⟩], [⟨"F", "K"⟩]], ⟨some 0, 0⟩⟩ 2 ∧
      readT (writeT ⟨[[⟨"F", "K"⟩], [⟨"F", "K"⟩], [⟨"F", "K"⟩]], ⟨some 0, 0⟩⟩ 2 t) 1 =
        readT ⟨[[⟨"F", "K"⟩], [⟨"F", "K"⟩], [⟨"F", "K"⟩]], ⟨some 0, 0⟩⟩ 1) ∧
    (∀ rc, (⟨[[⟨"F", "K"⟩], [⟨"F", "K"⟩], [⟨"F", "K"⟩]], ⟨some 0, 0⟩⟩ : LState).cache.dfRef =
        some rc → rc ≠ 1 ∧ rc ≠ 2 ∧
      ∀ t, readT (writeT ⟨[[⟨"F", "K"⟩], [⟨"F", "K"⟩], [⟨"F", "K"⟩]], ⟨some 0, 0⟩⟩ 1 t) rc =
          readT ⟨[[⟨"F", "K"⟩], [⟨"F", "K"⟩], [⟨"F", "K"⟩]], ⟨some 0, 0⟩⟩ rc ∧
        readT (writeT ⟨[[⟨"F", "K"⟩], [⟨"F", "K"⟩], [⟨"F", "K"⟩]], ⟨some 0, 0⟩⟩ 2 t) rc =
          readT ⟨[[⟨"F", "K"⟩], [⟨"F", "K"⟩], [⟨"F", "K"⟩]], ⟨some 0, 0⟩⟩ rc) :=
  c8_cache_copy_coherence
    ⟨true, Except.ok ⟨["Kommune", "Frakmt"], [[some "K", some "F"]]⟩, Except.error "io"⟩
    0 10 ⟨[], ⟨none, 0⟩⟩
    ⟨[[⟨"F", "K"⟩], [⟨"F", "K"⟩]], ⟨some 0, 0⟩⟩
    ⟨[[⟨"F", "K"⟩], [⟨"F", "K"⟩], [⟨"F", "K"⟩]], ⟨some 0, 0⟩⟩
    1 2 ["cp1252"] []
    (fun rc h => Option.noConfusion h) rfl rfl (by decide)
